import Mathlib

/-!
Shallow embedding of the campus-dating backend (src/main.py, src/schemas.py):
the document store, the request handlers, and theorems about the
swipe/match/discovery pipeline, authentication, profiles and messaging.

Handlers are modelled as pure functions over an explicit `Store`.  A stateful
handler returns the resulting store together with an `Except Err` outcome, so
the store at the moment an error is raised is observable.  Unix time and the
randomly generated magic token are passed in as explicit parameters.
-/

set_option maxRecDepth 40000

namespace CampusDating

/-- Outcome of a handler: a structured HTTP error (as raised through
`HTTPException(status_code, detail)`), or an unhandled Python exception
escaping the handler (bson `InvalidId`, `AttributeError` on `None`,
pydantic validation errors). -/
inductive Err where
  | http (code : Nat) (detail : String)
  | unhandled (exn : String)
  deriving DecidableEq

/-- schemas.User, with pydantic defaults. -/
structure User where
  email : String
  first_name : Option String := none
  last_name : Option String := none
  is_active : Bool := true
  is_banned : Bool := false
  residence_id : Option String := none
  allow_all_residences : Bool := false
  deriving DecidableEq

/-- schemas.Photo (`{"url": ..., "order": ...}` documents built by the
profile handler). -/
structure Photo where
  url : String
  order : Nat
  deriving DecidableEq

/-- The profile document as actually written by `create_or_update_profile`
(`profile_doc`, main.py lines 156-166).  Note it has no `residence_id`
field: residence data lives only on the User document. -/
structure Profile where
  user_id : String
  bio : Option String := none
  age : Option Int := none
  pronouns : Option String := none
  year : Option String := none
  program : Option String := none
  interests : List String := []
  photos : List Photo := []
  updated_at : Nat := 0
  deriving DecidableEq

/-- schemas.Verification. -/
structure Verification where
  email : String
  token : String
  purpose : String := "login"
  used : Bool := false
  expires_at : Nat
  deriving DecidableEq

/-- The swipe document written by `swipe` (main.py line 225). -/
structure Swipe where
  swiper_id : String
  target_id : String
  direction : String
  deriving DecidableEq

/-- schemas.Match / the match document written by `swipe`. -/
structure Match where
  user_a : String
  user_b : String
  deriving DecidableEq

/-- The message document written by `send_message` (main.py line 281). -/
structure Message where
  match_id : String
  sender_id : String
  text : String
  deriving DecidableEq

/-- The document store.  `create_document` / `get_documents` live in
database.py, which is not under src/; they are modelled from the spec:
the Persistence Gateway is "generic create/read/update operations against
named entity collections; no logic, pure I/O wrapper".  So creation appends
a document (insertion order) with a fresh object id and no validation, and
queries filter in insertion order with Mongo equality semantics.
`fresh` drives generation of new object ids: every id stored in a concrete
store is assumed generated by an earlier, smaller counter value. -/
structure Store where
  users : List (String × User) := []
  profiles : List Profile := []
  verifications : List (Nat × Verification) := []
  swipes : List Swipe := []
  «matches» : List (String × Match) := []
  messages : List Message := []
  fresh : Nat := 0
  deriving DecidableEq

/-- Python `str.lower`. -/
def strLower (s : String) : String := String.mk (s.data.map Char.toLower)

def isHexChar (c : Char) : Bool :=
  (48 ≤ c.toNat && c.toNat ≤ 57) || (97 ≤ c.toNat && c.toNat ≤ 102) ||
    (65 ≤ c.toNat && c.toNat ≤ 70)

/-- bson's `ObjectId(s)` accepts exactly a 24-character hexadecimal string;
anything else raises `InvalidId`. -/
def validOid (s : String) : Bool := s.length == 24 && s.data.all isHexChar

def hexChar (n : Nat) : Char :=
  if n < 10 then Char.ofNat (48 + n) else Char.ofNat (87 + n)

/-- Object id generated for the `n`-th created document. -/
def genOid (n : Nat) : String :=
  String.mk ((List.range 24).map fun i => hexChar (n / 16 ^ (23 - i) % 16))

def ALLOWED_DOMAINS : List String := ["polito.it", "unito.it"]

/-- Splits a character list at its unique `@`; `none` when there is no `@`
or more than one. -/
def splitAtUniqueAt : List Char → Option (List Char × List Char)
  | [] => none
  | c :: rest =>
    if c = '@' then
      if rest.contains '@' then none else some ([], rest)
    else
      match splitAtUniqueAt rest with
      | some ld => some (c :: ld.1, ld.2)
      | none => none

/-- Splitting of an address into local part and domain.  Models the external
email_validator library's parse (success iff exactly one `@` with nonempty
local part and domain). -/
def emailParts (e : String) : Option (String × String) :=
  match splitAtUniqueAt e.data with
  | some ld =>
    if ld.1.isEmpty || ld.2.isEmpty then none else some (String.mk ld.1, String.mk ld.2)
  | none => none

/-- main.py `is_valid_domain`. -/
def is_valid_domain (email : String) : Bool :=
  match emailParts email with
  | none => false
  | some ld =>
    let dl := strLower ld.2
    (ALLOWED_DOMAINS.any fun d => dl == d || (String.append "@" d).data.isSuffixOf dl.data) ||
      ALLOWED_DOMAINS.contains dl

def BANNED_WORDS : List String := ["slur1", "slur2", "badword"]

/-- Is `w` a leading segment of `l`? -/
def leadsWith (w l : List Char) : Bool :=
  match w with
  | [] => true
  | c :: cs =>
    match l with
    | [] => false
    | d :: ds => c == d && leadsWith cs ds

/-- Python's substring test `w in s`, over character lists. -/
def occursIn (w : List Char) : List Char → Bool
  | [] => w.isEmpty
  | c :: rest => leadsWith w (c :: rest) || occursIn w rest

/-- The banned-word gate of `create_or_update_profile`: Python's
`if payload.bio:` skips `None` and the empty string. -/
def bioBlocked (bio : Option String) : Bool :=
  match bio with
  | none => false
  | some b => !(b == "") && BANNED_WORDS.any fun w => occursIn w.data (strLower b).data

/-- `db["user"].find_one({"_id": ObjectId(id)})` (id already known valid). -/
def lookupUser (st : Store) (id : String) : Option User :=
  (st.users.find? fun p => p.1 == id).map Prod.snd

/-- `db["match"].find_one({"_id": ObjectId(id)})` (id already known valid). -/
def lookupMatch (st : Store) (id : String) : Option Match :=
  (st.«matches».find? fun p => p.1 == id).map Prod.snd

/-- `db["profile"].find_one({"user_id": uid})`. -/
def findProfile (st : Store) (uid : String) : Option Profile :=
  st.profiles.find? fun p => p.user_id == uid

def MAGIC_TOKEN_TTL : Nat := 15 * 60

/-- main.py `send_magic_link`.  `token` is the value produced by
`secrets.token_urlsafe(24)` and `now` the value of `time.time()`. -/
def send_magic_link (st : Store) (email token purpose : String) (now : Nat) :
    Store × Except Err (String × Nat) :=
  let e := strLower email
  if !is_valid_domain e then
    (st, .error (.http 400 "Email domain not allowed. Use your student email (polito/unito)."))
  else if !(purpose == "login" || purpose == "signup") then
    (st, .error (.unhandled "pydantic ValidationError"))
  else
    let exp := now + MAGIC_TOKEN_TTL
    ({ st with
        verifications := st.verifications ++ [(st.fresh, ⟨e, token, purpose, false, exp⟩)],
        fresh := st.fresh + 1 },
      .ok (token, exp))

/-- Mongo `update_one({"_id": id}, {"$set": {"used": true}})` on the
verification collection: updates the first document with that id. -/
def markUsedFirst : List (Nat × Verification) → Nat → List (Nat × Verification)
  | [], _ => []
  | v :: rest, id =>
    if v.1 == id then (v.1, { v.2 with used := true }) :: rest
    else v :: markUsedFirst rest id

/-- main.py `verify_magic_link`. -/
def verify_magic_link (st : Store) (email token : String) (now : Nat) :
    Store × Except Err String :=
  let e := strLower email
  if !is_valid_domain e then (st, .error (.http 400 "Invalid email"))
  else
    let recs := st.verifications.filter fun v =>
      v.2.email == e && v.2.token == token && v.2.used == false
    match recs.getLast? with
    | none => (st, .error (.http 400 "Invalid or used token"))
    | some rec =>
      if rec.2.expires_at < now then (st, .error (.http 400 "Token expired"))
      else
        let upsert : String × Store :=
          match st.users.find? fun p => p.2.email == e with
          | some p => (p.1, st)
          | none =>
            (genOid st.fresh,
              { st with
                  users := st.users ++ [(genOid st.fresh, { email := e })]
                  fresh := st.fresh + 1 })
        ({ upsert.2 with verifications := markUsedFirst upsert.2.verifications rec.1 },
          .ok upsert.1)

/-- The body of a POST /profile request (CreateProfileRequest). -/
structure ProfilePayload where
  first_name : String
  last_name : Option String := none
  residence_id : Option String := none
  allow_all_residences : Bool := false
  bio : Option String := none
  age : Option Int := none
  pronouns : Option String := none
  year : Option String := none
  program : Option String := none
  interests : List String := []
  photos : List String := []
  deriving DecidableEq

def MIN_PHOTOS : Nat := 3
def MAX_PHOTOS : Nat := 8

/-- Mongo `update_one` on the user collection: rewrite the first document
with the given id. -/
def updateFirstUser : List (String × User) → String → (User → User) → List (String × User)
  | [], _, _ => []
  | p :: rest, id, f =>
    if p.1 == id then (p.1, f p.2) :: rest else p :: updateFirstUser rest id f

/-- Mongo `update_one` on the profile collection: `$set` of the whole
`profile_doc` rewrites every modelled field of the first matching profile. -/
def updateFirstProfile : List Profile → String → Profile → List Profile
  | [], _, _ => []
  | p :: rest, uid, np =>
    if p.user_id == uid then np :: rest else p :: updateFirstProfile rest uid np

/-- main.py `create_or_update_profile`. -/
def create_or_update_profile (st : Store) (user_id : String) (pl : ProfilePayload)
    (now : Nat) : Store × Except Err Unit :=
  if bioBlocked pl.bio then (st, .error (.http 400 "Bio contains prohibited content"))
  else if pl.photos.length < MIN_PHOTOS ∨ MAX_PHOTOS < pl.photos.length then
    (st, .error (.http 400 "Profiles require between 3 and 8 photos"))
  else if !validOid user_id then (st, .error (.unhandled "bson InvalidId"))
  else
    match lookupUser st user_id with
    | none => (st, .error (.http 404 "User not found"))
    | some _ =>
      let st1 := { st with users := updateFirstUser st.users user_id (fun u =>
        { u with first_name := some pl.first_name, last_name := pl.last_name,
                 residence_id := pl.residence_id,
                 allow_all_residences := pl.allow_all_residences }) }
      let photos_docs := (pl.photos.take MAX_PHOTOS).enum.map fun p => Photo.mk p.2 p.1
      let prof : Profile :=
        { user_id := user_id, bio := pl.bio, age := pl.age, pronouns := pl.pronouns,
          year := pl.year, program := pl.program, interests := pl.interests,
          photos := photos_docs, updated_at := now }
      match findProfile st1 user_id with
      | some _ =>
        ({ st1 with profiles := updateFirstProfile st1.profiles user_id prof }, .ok ())
      | none => ({ st1 with profiles := st1.profiles ++ [prof] }, .ok ())

/-- A candidate card returned by discover. -/
structure Card where
  user_id : String
  first_name : Option String
  age : Option Int
  bio : Option String
  residence_id : Option String
  photos : List Photo
  deriving DecidableEq

/-- `{s.get("target_id") for s in get_documents("swipe", {"swiper_id": uid})}`. -/
def swipedTargets (st : Store) (uid : String) : List String :=
  (st.swipes.filter fun s => s.swiper_id == uid).map Swipe.target_id

/-- The profiles matched by discover's Mongo `filter_query`:
`user_id != uid`, and unless `allow_all_residences`, also
`residence_id == <requester User residence_id>`.  Profile documents never
carry a `residence_id` field (see `Profile`), and a Mongo equality query
matches a document missing the field exactly when the queried value is
null: so the residence clause matches everything when the requester has no
residence and nothing otherwise. -/
def discPool (st : Store) (uid : String) (u : User) : List Profile :=
  st.profiles.filter fun p =>
    p.user_id != uid && (u.allow_all_residences || u.residence_id.isNone)

def cardOf (u : User) (p : Profile) : Card :=
  ⟨p.user_id, u.first_name, p.age, p.bio, u.residence_id, p.photos⟩

/-- The `for prof in candidates_cursor` loop of discover. -/
def discoverLoop (st : Store) (swiped : List String) (limit : Nat) :
    List Profile → List Card → Except Err (List Card)
  | [], acc => .ok acc
  | p :: rest, acc =>
    if swiped.contains p.user_id then discoverLoop st swiped limit rest acc
    else if !validOid p.user_id then .error (.unhandled "bson InvalidId")
    else
      match lookupUser st p.user_id with
      | none => discoverLoop st swiped limit rest acc
      | some u =>
        if u.is_banned then discoverLoop st swiped limit rest acc
        else
          let acc2 := acc ++ [cardOf u p]
          if limit ≤ acc2.length then .ok acc2
          else discoverLoop st swiped limit rest acc2

/-- main.py `discover`.  The 422 branch is FastAPI's validation of
`limit: int = Query(20, ge=1, le=50)`. -/
def discover (st : Store) (user_id : String) (limit : Nat) : Except Err (List Card) :=
  if limit < 1 ∨ 50 < limit then .error (.http 422 "limit out of range")
  else if !validOid user_id then .error (.unhandled "bson InvalidId")
  else
    match lookupUser st user_id with
    | none => .error (.http 404 "User not found")
    | some user =>
      match findProfile st user_id with
      | none => .error (.http 400 "Complete your profile first")
      | some _ =>
        discoverLoop st (swipedTargets st user_id) limit
          ((discPool st user_id user).take (2 * limit)) []

/-- The `$or` pair query of `swipe`'s duplicate-match check. -/
def isPair (a b : String) (m : Match) : Bool :=
  (m.user_a == a && m.user_b == b) || (m.user_a == b && m.user_b == a)

/-- main.py `swipe`.  Returns the resulting store and the `match` flag. -/
def swipe (st : Store) (user_id target_id direction : String) :
    Store × Except Err Bool :=
  if !(direction == "left" || direction == "right") then
    (st, .error (.http 400 "Invalid direction"))
  else
    let st1 := { st with swipes := st.swipes ++ [⟨user_id, target_id, direction⟩] }
    if direction == "right" then
      if st1.swipes.any (fun s =>
          s.swiper_id == target_id && s.target_id == user_id && s.direction == "right") then
        if st1.«matches».any (fun p => isPair user_id target_id p.2) then (st1, .ok true)
        else
          ({ st1 with
              «matches» := st1.«matches» ++ [(genOid st1.fresh, ⟨user_id, target_id⟩)]
              fresh := st1.fresh + 1 }, .ok true)
      else (st1, .ok false)
    else (st1, .ok false)

/-- A match summary returned by `list_matches`. -/
structure MatchCard where
  match_id : String
  user_id : String
  first_name : Option String
  photos : List Photo
  deriving DecidableEq

/-- `other_id = m["user_b"] if m["user_a"] == user_id else m["user_a"]`. -/
def otherOf (uid : String) (m : Match) : String :=
  if m.user_a == uid then m.user_b else m.user_a

/-- One iteration of the `list_matches` loop: raises bson `InvalidId` on a
malformed counterpart id, and `AttributeError` when the counterpart User
document is absent (the code calls `u.get` without a None check). -/
def matchCardOf (st : Store) (uid : String) (m : String × Match) :
    Except Err MatchCard :=
  let other := otherOf uid m.2
  let photos := ((findProfile st other).map Profile.photos).getD []
  if !validOid other then .error (.unhandled "bson InvalidId")
  else
    match lookupUser st other with
    | none => .error (.unhandled "AttributeError: NoneType has no attribute get")
    | some u => .ok ⟨m.1, other, u.first_name, photos⟩

/-- A Python for-loop that can raise: stops at the first error. -/
def exceptMap {α β : Type} (f : α → Except Err β) : List α → Except Err (List β)
  | [] => .ok []
  | x :: xs =>
    match f x with
    | .error e => .error e
    | .ok y =>
      match exceptMap f xs with
      | .error e => .error e
      | .ok ys => .ok (y :: ys)

/-- `db["match"].find({"$or": [{"user_a": uid}, {"user_b": uid}]})`. -/
def matchesOf (st : Store) (uid : String) : List (String × Match) :=
  st.«matches».filter fun p => p.2.user_a == uid || p.2.user_b == uid

/-- main.py `list_matches`. -/
def list_matches (st : Store) (uid : String) : Except Err (List MatchCard) :=
  exceptMap (matchCardOf st uid) (matchesOf st uid)

/-- main.py `list_messages`. -/
def list_messages (st : Store) (user_id match_id : String) :
    Except Err (List Message) :=
  if !validOid match_id then .error (.unhandled "bson InvalidId")
  else
    match lookupMatch st match_id with
    | none => .error (.http 404 "Match not found")
    | some m =>
      if user_id == m.user_a || user_id == m.user_b then
        .ok (st.messages.filter fun x => x.match_id == match_id)
      else .error (.http 404 "Match not found")

/-- main.py `send_message`.  The request model `MessageRequest` declares
`text: str` with no length bound, and the handler inserts a raw dict, so no
validation of `text` happens anywhere on this path. -/
def send_message (st : Store) (user_id match_id text : String) :
    Store × Except Err Unit :=
  if !validOid match_id then (st, .error (.unhandled "bson InvalidId"))
  else
    match lookupMatch st match_id with
    | none => (st, .error (.http 404 "Match not found"))
    | some m =>
      if user_id == m.user_a || user_id == m.user_b then
        ({ st with messages := st.messages ++ [⟨match_id, user_id, text⟩] }, .ok ())
      else (st, .error (.http 404 "Match not found"))

/-! ### Derived notions used in the statements -/

/-- Did the handler return a structured result (no exception, no HTTP error)? -/
def isOkE {α : Type} : Except Err α → Bool
  | .ok _ => true
  | .error _ => false

/-- A pool profile that discover's per-candidate checks accept: not already
swiped on by the requester, owned by an existing, well-formed, non-banned
user. -/
def validCand (st : Store) (swiped : List String) (p : Profile) : Bool :=
  !swiped.contains p.user_id && validOid p.user_id &&
    (match lookupUser st p.user_id with
     | some u => !u.is_banned
     | none => false)

/-- The valid candidates of a requester: pool profiles passing all
per-candidate checks. -/
def validCandidates (st : Store) (uid : String) (u : User) : List Profile :=
  (discPool st uid u).filter (validCand st (swipedTargets st uid))

/-- The owning user of this id exists and is not banned. -/
def ownerOk (st : Store) (id : String) : Bool :=
  match lookupUser st id with
  | some u => !u.is_banned
  | none => false

/-- Number of match records for the unordered pair `{a, b}`. -/
def countPair (l : List (String × Match)) (a b : String) : Nat :=
  (l.filter fun p => isPair a b p.2).length

/-- The counterpart of `uid` in match `m` has a well-formed id and an
existing User record, so `list_matches` can build its card. -/
def goodOther (st : Store) (uid : String) (m : Match) : Prop :=
  validOid (otherOf uid m) = true ∧ (lookupUser st (otherOf uid m)).isSome = true

/-! ### Concrete sample data for counterexamples and witnesses -/

def idA : String := "aaaaaaaaaaaaaaaaaaaaaaaa"
def idB : String := "bbbbbbbbbbbbbbbbbbbbbbbb"
def idC : String := "cccccccccccccccccccccccc"
def idD : String := "dddddddddddddddddddddddd"
def idM : String := "0123456789abcdef01234567"

def photos3 : List Photo := [⟨"p0", 0⟩, ⟨"p1", 1⟩, ⟨"p2", 2⟩]

/-- Requester with no residence and `allow_all_residences = false`. -/
def userA_noRes : User := { email := "a@polito.it" }
/-- Requester living in residence r1, `allow_all_residences = false`. -/
def userA_r1 : User := { email := "a@polito.it", residence_id := some "r1" }
/-- Requester with `allow_all_residences = true`. -/
def userA_all : User := { email := "a@polito.it", allow_all_residences := true }
/-- Candidate living in residence r1. -/
def userB_r1 : User := { email := "b@unito.it", residence_id := some "r1" }
def userC_p : User := { email := "c@polito.it" }
def userD_p : User := { email := "d@polito.it" }

def profA : Profile := { user_id := idA, photos := photos3 }
def profB : Profile := { user_id := idB, photos := photos3 }
def profC : Profile := { user_id := idC, photos := photos3 }
def profD : Profile := { user_id := idD, photos := photos3 }

/-- Residence-less requester A plus candidate B who lives in r1. -/
def stC1 : Store :=
  { users := [(idA, userA_noRes), (idB, userB_r1)], profiles := [profA, profB] }

/-- Requester A and candidate B both live in residence r1. -/
def stC1b : Store :=
  { users := [(idA, userA_r1), (idB, userB_r1)], profiles := [profA, profB] }

/-- Requester A (all residences) with candidates B, C, D; B and C already
swiped on by A, D untouched. -/
def stC3 : Store :=
  { users := [(idA, userA_all), (idB, userB_r1), (idC, userC_p), (idD, userD_p)]
    profiles := [profA, profB, profC, profD]
    swipes := [⟨idA, idB, "left"⟩, ⟨idA, idC, "right"⟩] }

def matchAB : Match := ⟨idA, idB⟩

/-- A single match between A and B. -/
def stM : Store := { users := [(idA, userA_noRes), (idB, userB_r1)], «matches» := [(idM, matchAB)] }

/-- The 1001-character message text. -/
def longText : String := String.mk (List.replicate 1001 'x')

/-- Fresh store with users A and B and no swipes or matches. -/
def stAB : Store := { users := [(idA, userA_noRes), (idB, userB_r1)] }

/-- A match between A and B whose counterpart B has no User record. -/
def stOrphan : Store := { users := [(idA, userA_noRes)], «matches» := [(idM, matchAB)] }

/-! ### Theorems -/

/-- C1: the claim is the spec's (and schemas.py's) clear intent but the code
is wrong.  `discover` puts the residence filter in the Mongo query on the
*profile* collection, whose documents never carry a `residence_id` field, so
the query clause compares a missing field: a requester with
`allow_all_residences = false` and no residence receives candidates from
*any* residence (here B living in r1), and a requester with a residence
receives *no* candidates at all, not even same-residence ones. -/
theorem C1_residence_filter_bug :
    userA_noRes.allow_all_residences = false ∧
    userA_noRes.residence_id = none ∧
    discover stC1 idA 20 = .ok [cardOf userB_r1 profB] ∧
    (cardOf userB_r1 profB).residence_id = some "r1" ∧
    userA_r1.allow_all_residences = false ∧
    userB_r1.residence_id = userA_r1.residence_id ∧
    discover stC1b idA 20 = .ok [] :=
  ⟨rfl, rfl, rfl, rfl, rfl, rfl, rfl⟩

/-- C6: the claim is the spec's intent (schemas.Message declares
`max_length=1000`), but `send_message` builds a raw dict from
`MessageRequest.text`, which has no length bound, and the persistence
gateway is a pure I/O wrapper: a participant's 1001-character message is
accepted and appended, not rejected with a 4xx. -/
theorem C6_message_length_not_enforced :
    longText.length = 1001 ∧
    send_message stM idA idM longText =
      ({ stM with messages := [⟨idM, idA, longText⟩] }, .ok ()) :=
  ⟨rfl, rfl⟩

/-- C3 counterexample: with `limit = 1` the requester A has one valid
candidate (D) in the store, yet `discover` returns no cards: the cursor is
capped at `2 * limit` pool profiles and the first two (B, C) are both
already swiped. -/
theorem C3_counterexample :
    lookupUser stC3 idA = some userA_all ∧
    (validCandidates stC3 idA userA_all).length = 1 ∧
    discover stC3 idA 1 = .ok [] :=
  ⟨rfl, rfl, rfl⟩

/-- A successful `discover` run is the candidate loop over the capped pool. -/
theorem discover_ok_loop (st : Store) (uid : String) (limit : Nat) (cards : List Card)
    (hok : discover st uid limit = .ok cards) :
    ∃ u, lookupUser st uid = some u ∧ 1 ≤ limit ∧
      discoverLoop st (swipedTargets st uid) limit
        ((discPool st uid u).take (2 * limit)) [] = .ok cards := by
  unfold discover at hok
  split at hok
  · exact absurd hok (by simp)
  next hlim =>
    split at hok
    · exact absurd hok (by simp)
    next hoid =>
      cases hu : lookupUser st uid with
      | none => simp only [hu] at hok; exact absurd hok (by simp)
      | some u =>
        simp only [hu] at hok
        cases hp : findProfile st uid with
        | none => simp only [hp] at hok; exact absurd hok (by simp)
        | some pr =>
          simp only [hp] at hok
          exact ⟨u, rfl, by omega, hok⟩

/-- Length of the cards produced by the candidate loop: the number of valid
candidates seen, truncated at `limit`. -/
theorem discoverLoop_length (st : Store) (swiped : List String) (limit : Nat)
    (l : List Profile) : ∀ acc cards, acc.length < limit →
    discoverLoop st swiped limit l acc = .ok cards →
    cards.length = min limit (acc.length + (l.filter (validCand st swiped)).length) := by
  induction l with
  | nil =>
    intro acc cards hlt hok
    simp only [discoverLoop, Except.ok.injEq] at hok
    subst hok
    simp [Nat.min_eq_right (Nat.le_of_lt hlt)]
  | cons p rest ih =>
    intro acc cards hlt hok
    simp only [discoverLoop] at hok
    rw [List.filter_cons]
    by_cases hsw : swiped.contains p.user_id
    · simp only [hsw, if_true] at hok
      have hvc : validCand st swiped p = false := by
        simp only [validCand, hsw, Bool.not_true, Bool.false_and]
      simpa [hvc] using ih acc cards hlt hok
    · have hswf : swiped.contains p.user_id = false := by simpa using hsw
      simp only [hswf, Bool.false_eq_true, if_false, Bool.not_false] at hok
      by_cases hv : validOid p.user_id
      · simp only [hv, Bool.not_true, Bool.false_eq_true, if_false] at hok
        cases hu : lookupUser st p.user_id with
        | none =>
          simp only [hu] at hok
          have hvc : validCand st swiped p = false := by
            simp only [validCand, hu, Bool.and_false]
          simpa [hvc] using ih acc cards hlt hok
        | some u =>
          simp only [hu] at hok
          by_cases hb : u.is_banned
          · simp only [hb, if_true] at hok
            have hvc : validCand st swiped p = false := by
              simp only [validCand, hu, hb, Bool.not_true, Bool.and_false]
            simpa [hvc] using ih acc cards hlt hok
          · have hbf : u.is_banned = false := by simpa using hb
            simp only [hbf, Bool.false_eq_true, if_false] at hok
            have hvc : validCand st swiped p = true := by
              simp only [validCand, hswf, hv, hu, hbf, Bool.not_false, Bool.true_and,
                Bool.and_true]
            rw [hvc, if_pos rfl, List.length_cons]
            by_cases hbreak : limit ≤ (acc ++ [cardOf u p]).length
            · simp only [hbreak, if_true, Except.ok.injEq] at hok
              subst hok
              have hl2 : limit = acc.length + 1 := by
                have h3 := hbreak
                simp only [List.length_append, List.length_cons, List.length_nil] at h3
                omega
              rw [Nat.min_eq_left (by omega)]
              simp [hl2]
            · simp only [hbreak, if_false] at hok
              have hlt2 : (acc ++ [cardOf u p]).length < limit := by omega
              have hlen := ih (acc ++ [cardOf u p]) cards hlt2 hok
              rw [hlen]
              congr 1
              simp only [List.length_append, List.length_cons, List.length_nil]
              omega
      · have hvf : validOid p.user_id = false := by simpa using hv
        simp only [hvf, Bool.not_false, if_true] at hok
        exact absurd hok (by simp)

/-- Every card produced by the candidate loop comes from a profile of the
traversed list that passed the swiped / existing-owner / not-banned checks. -/
theorem discoverLoop_mem (st : Store) (swiped : List String) (limit : Nat)
    (l : List Profile) : ∀ acc cards, discoverLoop st swiped limit l acc = .ok cards →
    ∀ c ∈ cards, c ∈ acc ∨ ∃ p, p ∈ l ∧ ∃ u,
      swiped.contains p.user_id = false ∧
      lookupUser st p.user_id = some u ∧ u.is_banned = false ∧ c = cardOf u p := by
  induction l with
  | nil =>
    intro acc cards hok c hc
    simp only [discoverLoop, Except.ok.injEq] at hok
    subst hok
    exact Or.inl hc
  | cons p rest ih =>
    intro acc cards hok c hc
    simp only [discoverLoop] at hok
    by_cases hsw : swiped.contains p.user_id
    · simp only [hsw, if_true] at hok
      rcases ih acc cards hok c hc with h | ⟨q, hq, u, h1, h2, h3, h4⟩
      · exact Or.inl h
      · exact Or.inr ⟨q, List.mem_cons_of_mem p hq, u, h1, h2, h3, h4⟩
    · have hswf : swiped.contains p.user_id = false := by simpa using hsw
      simp only [hswf, Bool.false_eq_true, if_false, Bool.not_false] at hok
      by_cases hv : validOid p.user_id
      · simp only [hv, Bool.not_true, Bool.false_eq_true, if_false] at hok
        cases hu : lookupUser st p.user_id with
        | none =>
          simp only [hu] at hok
          rcases ih acc cards hok c hc with h | ⟨q, hq, u, h1, h2, h3, h4⟩
          · exact Or.inl h
          · exact Or.inr ⟨q, List.mem_cons_of_mem p hq, u, h1, h2, h3, h4⟩
        | some u =>
          simp only [hu] at hok
          by_cases hb : u.is_banned
          · simp only [hb, if_true] at hok
            rcases ih acc cards hok c hc with h | ⟨q, hq, w, h1, h2, h3, h4⟩
            · exact Or.inl h
            · exact Or.inr ⟨q, List.mem_cons_of_mem p hq, w, h1, h2, h3, h4⟩
          · have hbf : u.is_banned = false := by simpa using hb
            simp only [hbf, Bool.false_eq_true, if_false] at hok
            have hnew : ∀ d, d ∈ acc ++ [cardOf u p] → d ∈ acc ∨ ∃ q, q ∈ p :: rest ∧
                ∃ w, swiped.contains q.user_id = false ∧
                lookupUser st q.user_id = some w ∧ w.is_banned = false ∧ d = cardOf w q := by
              intro d hd
              rcases List.mem_append.mp hd with hd | hd
              · exact Or.inl hd
              · refine Or.inr ⟨p, List.mem_cons_self p rest, u, hswf, hu, hbf, ?_⟩
                simpa using hd
            by_cases hbreak : limit ≤ (acc ++ [cardOf u p]).length
            · simp only [hbreak, if_true, Except.ok.injEq] at hok
              subst hok
              exact hnew c hc
            · simp only [hbreak, if_false] at hok
              rcases ih (acc ++ [cardOf u p]) cards hok c hc with h | ⟨q, hq, w, h1, h2, h3, h4⟩
              · rcases hnew c h with h' | h'
                · exact Or.inl h'
                · exact Or.inr h'
              · exact Or.inr ⟨q, List.mem_cons_of_mem p hq, w, h1, h2, h3, h4⟩
      · have hvf : validOid p.user_id = false := by simpa using hv
        simp only [hvf, Bool.not_false, if_true] at hok
        exact absurd hok (by simp)

/-- C3 (amended): the reference behavior caps its over-fetch at `2 * limit`
pool profiles, so the guarantee holds whenever the requester's candidate
pool fits in that cap: a successful `discover` then returns exactly
`min limit (number of valid candidates)` cards — at least `limit` cards when
at least `limit` valid candidates exist, and all of them when fewer do. -/
theorem C3_limit_guarantee_capped (st : Store) (uid : String) (u : User) (limit : Nat)
    (cards : List Card)
    (hu : lookupUser st uid = some u)
    (hcap : (discPool st uid u).length ≤ 2 * limit)
    (hok : discover st uid limit = .ok cards) :
    cards.length = min limit (validCandidates st uid u).length := by
  obtain ⟨u2, hu2, hlim, hloop⟩ := discover_ok_loop st uid limit cards hok
  rw [hu] at hu2
  cases hu2
  rw [List.take_of_length_le hcap] at hloop
  have := discoverLoop_length st (swipedTargets st uid) limit (discPool st uid u)
    [] cards (by simpa using hlim) hloop
  simpa [validCandidates] using this

/-- Witness for C3 (amended): in `stC1` requester A's pool holds one profile
and discover returns exactly it, matching `min limit #valid = 1`. -/
theorem C3_limit_guarantee_capped_witness :
    ([cardOf userB_r1 profB] : List Card).length =
      min 20 (validCandidates stC1 idA userA_noRes).length :=
  C3_limit_guarantee_capped stC1 idA userA_noRes 20 [cardOf userB_r1 profB]
    rfl (by decide) rfl

/-- C4: a successful `discover` never returns the requester's own profile,
never a profile the requester already swiped on (in either direction: the
exclusion set collects all of the requester's swipes regardless of
direction), and never a profile whose owning user is banned or absent. -/
theorem C4_discover_exclusions (st : Store) (uid : String) (limit : Nat) (cards : List Card)
    (hok : discover st uid limit = .ok cards) :
    ∀ c ∈ cards, c.user_id ≠ uid ∧
      (swipedTargets st uid).contains c.user_id = false ∧
      ownerOk st c.user_id = true := by
  obtain ⟨u, hu, hlim, hloop⟩ := discover_ok_loop st uid limit cards hok
  intro c hc
  rcases discoverLoop_mem st (swipedTargets st uid) limit _ [] cards hloop c hc with
    h | ⟨p, hp, w, h1, h2, h3, h4⟩
  · simp at h
  · have hpool : p ∈ discPool st uid u := List.take_subset _ _ hp
    have hpred := (List.mem_filter.mp hpool).2
    have hne : p.user_id ≠ uid := by
      have : (p.user_id != uid) = true := by
        cases hb : (p.user_id != uid) <;> simp [hb] at hpred ⊢
      simpa using this
    subst h4
    refine ⟨by simpa [cardOf] using hne, by simpa [cardOf] using h1, ?_⟩
    simp [cardOf, ownerOk, h2, h3]

/-- Witness for C4: the one card returned in `stC1` is not the requester,
not previously swiped, and owned by an existing non-banned user. -/
theorem C4_discover_exclusions_witness :
    (cardOf userB_r1 profB).user_id ≠ idA ∧
    (swipedTargets stC1 idA).contains (cardOf userB_r1 profB).user_id = false ∧
    ownerOk stC1 (cardOf userB_r1 profB).user_id = true :=
  C4_discover_exclusions stC1 idA 20 [cardOf userB_r1 profB] rfl
    (cardOf userB_r1 profB) (by simp)

/-- C8: a caller who is neither participant of an existing match gets
`404 Match not found` — not a 403 — from both message endpoints, and
`send_message` leaves the store (hence the message collection) untouched. -/
theorem C8_nonparticipant_gets_not_found (st : Store) (uid mid text : String) (m : Match)
    (hv : validOid mid = true)
    (hm : lookupMatch st mid = some m)
    (ha : uid ≠ m.user_a) (hb : uid ≠ m.user_b) :
    list_messages st uid mid = .error (.http 404 "Match not found") ∧
    send_message st uid mid text = (st, .error (.http 404 "Match not found")) := by
  have h1 : (uid == m.user_a) = false := beq_eq_false_iff_ne.mpr ha
  have h2 : (uid == m.user_b) = false := beq_eq_false_iff_ne.mpr hb
  constructor
  · unfold list_messages
    simp only [hv, Bool.not_true, Bool.false_eq_true, if_false, hm, h1, h2,
      Bool.or_self, if_false]
  · unfold send_message
    simp only [hv, Bool.not_true, Bool.false_eq_true, if_false, hm, h1, h2,
      Bool.or_self, if_false]

/-- Witness for C8: outsider C is rejected with 404 by both endpoints on the
match between A and B. -/
theorem C8_nonparticipant_gets_not_found_witness :
    list_messages stM idC idM = .error (.http 404 "Match not found") ∧
    send_message stM idC idM "hi" = (stM, .error (.http 404 "Match not found")) :=
  C8_nonparticipant_gets_not_found stM idC idM "hi" matchAB (by decide) rfl
    (by decide) (by decide)

/-- C7: profile save rejects any photo list shorter than 3 or longer than 8
with a 400 while leaving the store untouched, accepts 3..8 photos whenever
the other gates pass (bio clean, well-formed id, existing user), and every
rejection of any kind leaves the store — hence both the User and the
Profile records — completely unchanged. -/
theorem C7_photo_count_validation (st : Store) (uid : String) (pl : ProfilePayload)
    (now : Nat) :
    (pl.photos.length < MIN_PHOTOS ∨ MAX_PHOTOS < pl.photos.length →
      (create_or_update_profile st uid pl now).1 = st ∧
      ∃ d, (create_or_update_profile st uid pl now).2 = .error (.http 400 d)) ∧
    (MIN_PHOTOS ≤ pl.photos.length → pl.photos.length ≤ MAX_PHOTOS →
      bioBlocked pl.bio = false → validOid uid = true → (lookupUser st uid).isSome = true →
      ∃ st1, create_or_update_profile st uid pl now = (st1, .ok ())) ∧
    (∀ e, (create_or_update_profile st uid pl now).2 = .error e →
      (create_or_update_profile st uid pl now).1 = st) := by
  refine ⟨?_, ?_, ?_⟩
  · intro hlen
    unfold create_or_update_profile
    by_cases hbio : bioBlocked pl.bio
    · simp only [hbio, if_true]
      exact ⟨by trivial, _, by trivial⟩
    · have hbiof : bioBlocked pl.bio = false := by simpa using hbio
      simp only [hbiof, Bool.false_eq_true, if_false, hlen, if_true]
      exact ⟨by trivial, _, by trivial⟩
  · intro h3 h8 hbio hv hu
    unfold create_or_update_profile
    have hlen : ¬(pl.photos.length < MIN_PHOTOS ∨ MAX_PHOTOS < pl.photos.length) := by omega
    obtain ⟨u, hu2⟩ := Option.isSome_iff_exists.mp hu
    simp only [hbio, Bool.false_eq_true, if_false, hlen, hv, Bool.not_true, hu2]
    cases hp : findProfile
        { st with users := updateFirstUser st.users uid (fun u =>
            { u with first_name := some pl.first_name, last_name := pl.last_name,
                     residence_id := pl.residence_id,
                     allow_all_residences := pl.allow_all_residences }) } uid with
    | some pr => exact ⟨_, rfl⟩
    | none => exact ⟨_, rfl⟩
  · intro e he
    unfold create_or_update_profile at he ⊢
    by_cases hbio : bioBlocked pl.bio
    · simp only [hbio, if_true]
    · have hbiof : bioBlocked pl.bio = false := by simpa using hbio
      simp only [hbiof, Bool.false_eq_true, if_false] at he ⊢
      by_cases hlen : pl.photos.length < MIN_PHOTOS ∨ MAX_PHOTOS < pl.photos.length
      · simp only [hlen, if_true]
      · simp only [hlen, if_false] at he ⊢
        by_cases hv : validOid uid
        · simp only [hv, Bool.not_true, Bool.false_eq_true, if_false] at he ⊢
          cases hu : lookupUser st uid with
          | none => simp only [hu]
          | some u =>
            simp only [hu] at he ⊢
            exfalso
            revert he
            cases hp : findProfile
                { st with users := updateFirstUser st.users uid (fun u =>
                    { u with first_name := some pl.first_name, last_name := pl.last_name,
                             residence_id := pl.residence_id,
                             allow_all_residences := pl.allow_all_residences }) } uid with
            | some pr => simp
            | none => simp
        · have hvf : validOid uid = false := by simpa using hv
          simp only [hvf, Bool.not_false, if_true]

/-- Witness for C7: a 2-photo payload is rejected and the store unchanged;
the theorem applied at a concrete out-of-bounds input. -/
theorem C7_photo_count_validation_witness :
    (create_or_update_profile stC1 idA { first_name := "A", photos := ["p0", "p1"] } 0).1
      = stC1 ∧
    ∃ d, (create_or_update_profile stC1 idA
      { first_name := "A", photos := ["p0", "p1"] } 0).2 = .error (.http 400 d) :=
  (C7_photo_count_validation stC1 idA { first_name := "A", photos := ["p0", "p1"] } 0).1
    (by decide)

/-- Marking the freshly appended verification used: records with other ids
are untouched, the appended one is flipped. -/
theorem markUsedFirst_append (V : List (Nat × Verification)) (id : Nat) (r : Verification)
    (h : ∀ v ∈ V, v.1 ≠ id) :
    markUsedFirst (V ++ [(id, r)]) id = V ++ [(id, { r with used := true })] := by
  induction V with
  | nil => simp [markUsedFirst]
  | cons v rest ih =>
    have hv : (v.1 == id) = false := beq_eq_false_iff_ne.mpr (h v (by simp))
    simp only [List.cons_append, markUsedFirst, hv, Bool.false_eq_true, if_false,
      List.cons.injEq, true_and]
    exact ih fun w hw => h w (by simp [hw])

/-- `verify_magic_link` with the domain check discharged. -/
theorem verify_magic_link_eq (S : Store) (email token : String) (now : Nat)
    (hd2 : is_valid_domain (strLower email) = true) :
    verify_magic_link S email token now =
      (match (S.verifications.filter fun v =>
          v.2.email == strLower email && v.2.token == token && v.2.used == false).getLast? with
       | none => (S, .error (.http 400 "Invalid or used token"))
       | some rec =>
         if rec.2.expires_at < now then (S, .error (.http 400 "Token expired"))
         else
           let upsert : String × Store :=
             match S.users.find? fun p => p.2.email == strLower email with
             | some p => (p.1, S)
             | none =>
               (genOid S.fresh,
                 { S with
                     users := S.users ++ [(genOid S.fresh, { email := strLower email })]
                     fresh := S.fresh + 1 })
           ({ upsert.2 with verifications := markUsedFirst upsert.2.verifications rec.1 },
             .ok upsert.1)) := by
  unfold verify_magic_link
  simp only [hd2, Bool.not_true, Bool.false_eq_true, if_false]

/-- C5: sending a magic token for an allowed-domain email and verifying it
with the same email within the TTL succeeds and returns a user id; a second
verify with the same token fails with the InvalidToken error
(400 "Invalid or used token") and leaves the store — in particular every
User record — unchanged.  The hypotheses say the token is fresh (no
verification with this email/token pair is pending) and that stored
verification ids respect the freshness counter. -/
theorem C5_token_verified_exactly_once (st : Store) (email token : String)
    (t0 t1 t2 : Nat)
    (hd : is_valid_domain (strLower email) = true)
    (hfresh : ∀ v ∈ st.verifications, v.1 < st.fresh)
    (hnew : ∀ v ∈ st.verifications,
      (v.2.email == strLower email && v.2.token == token && v.2.used == false) = false)
    (ht : t1 ≤ t0 + MAGIC_TOKEN_TTL) :
    (∃ x, (send_magic_link st email token "login" t0).2 = .ok x) ∧
    (∃ uid, (verify_magic_link (send_magic_link st email token "login" t0).1
        email token t1).2 = .ok uid) ∧
    verify_magic_link
        (verify_magic_link (send_magic_link st email token "login" t0).1 email token t1).1
        email token t2 =
      ((verify_magic_link (send_magic_link st email token "login" t0).1 email token t1).1,
        .error (.http 400 "Invalid or used token")) := by
  have hsend : send_magic_link st email token "login" t0 =
      ({ st with
          verifications := st.verifications ++
            [(st.fresh, Verification.mk (strLower email) token "login" false (t0 + MAGIC_TOKEN_TTL))]
          fresh := st.fresh + 1 },
        .ok (token, t0 + MAGIC_TOKEN_TTL)) := by
    simp [send_magic_link, hd]
  have hVnil : (st.verifications.filter fun v =>
      v.2.email == strLower email && v.2.token == token && v.2.used == false) = [] :=
    List.filter_eq_nil_iff.mpr fun v hv => by simpa using hnew v hv
  have hrecs : ((st.verifications ++
      [(st.fresh, Verification.mk (strLower email) token "login" false (t0 + MAGIC_TOKEN_TTL))]).filter
        fun v => v.2.email == strLower email && v.2.token == token && v.2.used == false) =
      [(st.fresh, Verification.mk (strLower email) token "login" false (t0 + MAGIC_TOKEN_TTL))] := by
    rw [List.filter_append, hVnil]
    simp
  have hexp : ¬(t0 + MAGIC_TOKEN_TTL < t1) := by omega
  have hmark : markUsedFirst (st.verifications ++
      [(st.fresh, Verification.mk (strLower email) token "login" false (t0 + MAGIC_TOKEN_TTL))]) st.fresh =
      st.verifications ++
        [(st.fresh, Verification.mk (strLower email) token "login" true (t0 + MAGIC_TOKEN_TTL))] :=
    markUsedFirst_append _ _ _ fun v hv => Nat.ne_of_lt (hfresh v hv)
  have hv1 := verify_magic_link_eq
    ({ st with
        verifications := st.verifications ++
          [(st.fresh, Verification.mk (strLower email) token "login" false (t0 + MAGIC_TOKEN_TTL))]
        fresh := st.fresh + 1 }) email token t1 hd
  rw [hrecs] at hv1
  simp only [List.getLast?_singleton, hexp, if_false] at hv1
  refine ⟨⟨(token, t0 + MAGIC_TOKEN_TTL), by rw [hsend]⟩, ?_, ?_⟩
  · rw [hsend]
    cases hfind : st.users.find? fun p => p.2.email == strLower email with
    | some p => rw [hv1]; simp only [hfind]; exact ⟨p.1, rfl⟩
    | none => rw [hv1]; simp only [hfind]; exact ⟨_, rfl⟩
  · rw [hsend]
    rw [hv1]
    cases hfind : st.users.find? fun p => p.2.email == strLower email with
    | some p =>
      simp only [hfind]
      rw [hmark]
      have hv2 := verify_magic_link_eq
        ({ st with
            verifications := st.verifications ++
              [(st.fresh, Verification.mk (strLower email) token "login" true (t0 + MAGIC_TOKEN_TTL))]
            fresh := st.fresh + 1 }) email token t2 hd
      rw [show ((st.verifications ++
          [(st.fresh, Verification.mk (strLower email) token "login" true (t0 + MAGIC_TOKEN_TTL))]).filter
            fun v => v.2.email == strLower email && v.2.token == token && v.2.used == false) =
          [] from by rw [List.filter_append, hVnil]; simp] at hv2
      simpa using hv2
    | none =>
      simp only [hfind]
      rw [hmark]
      have hv2 := verify_magic_link_eq
        ({ st with
            users := st.users ++ [(genOid (st.fresh + 1), { email := strLower email })]
            verifications := st.verifications ++
              [(st.fresh, Verification.mk (strLower email) token "login" true (t0 + MAGIC_TOKEN_TTL))]
            fresh := st.fresh + 1 + 1 }) email token t2 hd
      rw [show ((st.verifications ++
          [(st.fresh, Verification.mk (strLower email) token "login" true (t0 + MAGIC_TOKEN_TTL))]).filter
            fun v => v.2.email == strLower email && v.2.token == token && v.2.used == false) =
          [] from by rw [List.filter_append, hVnil]; simp] at hv2
      simpa using hv2

/-- Witness for C5 at a concrete allowed-domain email and fresh store. -/
theorem C5_token_verified_exactly_once_witness :
    verify_magic_link
        (verify_magic_link (send_magic_link ({} : Store) "x@polito.it" "tkn" "login" 100).1
          "x@polito.it" "tkn" 900).1 "x@polito.it" "tkn" 5000 =
      ((verify_magic_link (send_magic_link ({} : Store) "x@polito.it" "tkn" "login" 100).1
          "x@polito.it" "tkn" 900).1,
        .error (.http 400 "Invalid or used token")) :=
  (C5_token_verified_exactly_once ({} : Store) "x@polito.it" "tkn" 100 900 5000
    (by decide) (by simp) (by simp) (by decide)).2.2

/-- `swipe` with direction "right", with the direction tests reduced. -/
theorem swipe_right_eq (st : Store) (a b : String) :
    swipe st a b "right" =
      (if (st.swipes ++ [(Swipe.mk a b "right")]).any
          (fun s => s.swiper_id == b && s.target_id == a && s.direction == "right") then
        if st.«matches».any (fun p => isPair a b p.2) then
          ({ st with swipes := st.swipes ++ [(Swipe.mk a b "right")] }, .ok true)
        else
          ({ st with
              swipes := st.swipes ++ [(Swipe.mk a b "right")]
              «matches» := st.«matches» ++ [(genOid st.fresh, (Match.mk a b))]
              fresh := st.fresh + 1 }, .ok true)
      else ({ st with swipes := st.swipes ++ [(Swipe.mk a b "right")] }, .ok false)) := rfl

/-- The match flag of a right swipe is exactly the reciprocal-swipe test
(evaluated after the new swipe record is inserted). -/
theorem swipe_right_flag (st : Store) (a b : String) :
    (swipe st a b "right").2 =
      .ok ((st.swipes ++ [(Swipe.mk a b "right")]).any
        fun s => s.swiper_id == b && s.target_id == a && s.direction == "right") := by
  rw [swipe_right_eq]
  by_cases h : (st.swipes ++ [(Swipe.mk a b "right")]).any
      (fun s => s.swiper_id == b && s.target_id == a && s.direction == "right")
  · simp only [h, if_true]
    split <;> rfl
  · have hf : (st.swipes ++ [(Swipe.mk a b "right")]).any
        (fun s => s.swiper_id == b && s.target_id == a && s.direction == "right") = false := by
      simpa using h
    simp only [hf, Bool.false_eq_true, if_false]

/-- Store fields after a right swipe: only the swipe log grows, plus
possibly one new match record for the swiped pair. -/
theorem swipe_right_state (st : Store) (a b : String) :
    (swipe st a b "right").1.users = st.users ∧
    (swipe st a b "right").1.profiles = st.profiles ∧
    (swipe st a b "right").1.swipes = st.swipes ++ [(Swipe.mk a b "right")] ∧
    ((swipe st a b "right").1.«matches» = st.«matches» ∨
      (swipe st a b "right").1.«matches» = st.«matches» ++ [(genOid st.fresh, (Match.mk a b))]) := by
  rw [swipe_right_eq]
  split
  · split
    · exact ⟨rfl, rfl, rfl, Or.inl rfl⟩
    · exact ⟨rfl, rfl, rfl, Or.inr rfl⟩
  · exact ⟨rfl, rfl, rfl, Or.inl rfl⟩

/-- When the reciprocal right swipe exists, the handler creates a match
record exactly when none exists for the pair. -/
theorem swipe_right_matches_spec (st : Store) (a b : String)
    (hrec : (st.swipes ++ [(Swipe.mk a b "right")]).any
      (fun s => s.swiper_id == b && s.target_id == a && s.direction == "right") = true) :
    (st.«matches».any (fun p => isPair a b p.2) = true ∧
      (swipe st a b "right").1.«matches» = st.«matches») ∨
    (st.«matches».any (fun p => isPair a b p.2) = false ∧
      (swipe st a b "right").1.«matches» = st.«matches» ++ [(genOid st.fresh, (Match.mk a b))]) := by
  rw [swipe_right_eq]
  simp only [hrec, if_true]
  by_cases hp : st.«matches».any (fun p => isPair a b p.2)
  · exact Or.inl ⟨hp, by simp only [hp, if_true]⟩
  · have hpf : st.«matches».any (fun p => isPair a b p.2) = false := by simpa using hp
    exact Or.inr ⟨hpf, by simp only [hpf, Bool.false_eq_true, if_false]⟩

theorem isPair_comm (a b : String) (m : Match) : isPair a b m = isPair b a m := by
  unfold isPair
  exact Bool.or_comm _ _

theorem isPair_mk_left (a b : String) : isPair a b (Match.mk a b) = true := by simp [isPair]

theorem isPair_mk_right (a b : String) : isPair a b ⟨b, a⟩ = true := by simp [isPair]

theorem countPair_append (l1 l2 : List (String × Match)) (a b : String) :
    countPair (l1 ++ l2) a b = countPair l1 a b + countPair l2 a b := by
  simp [countPair, List.filter_append]

theorem countPair_comm (l : List (String × Match)) (a b : String) :
    countPair l a b = countPair l b a := by
  unfold countPair
  congr 1
  apply List.filter_congr
  intro x _
  rw [isPair_comm]

theorem countPair_singleton (i : String) (m : Match) (a b : String)
    (h : isPair a b m = true) : countPair [(i, m)] a b = 1 := by
  simp [countPair, h]

theorem countPair_eq_zero_iff (l : List (String × Match)) (a b : String) :
    countPair l a b = 0 ↔ l.any (fun p => isPair a b p.2) = false := by
  rw [countPair, List.length_eq_zero, List.filter_eq_nil_iff, List.any_eq_false]

theorem any_of_countPair_pos (l : List (String × Match)) (a b : String)
    (h : 0 < countPair l a b) : l.any (fun p => isPair a b p.2) = true := by
  by_contra hc
  have : l.any (fun p => isPair a b p.2) = false := by simpa using hc
  rw [← countPair_eq_zero_iff] at this
  omega

/-- Mapping a fallible loop body over a list whose every element succeeds:
the loop returns a list containing the image of every element. -/
theorem exceptMap_ok_of_all {α β : Type} (f : α → Except Err β) (l : List α)
    (h : ∀ x ∈ l, ∃ y, f x = .ok y) :
    ∃ ys, exceptMap f l = .ok ys ∧ ∀ x ∈ l, ∃ y ∈ ys, f x = .ok y := by
  induction l with
  | nil => exact ⟨[], rfl, by simp⟩
  | cons a as ih =>
    obtain ⟨y, hy⟩ := h a (by simp)
    obtain ⟨ys, hys, hmem⟩ := ih fun x hx => h x (by simp [hx])
    refine ⟨y :: ys, ?_, ?_⟩
    · simp only [exceptMap, hy, hys]
    · intro x hx
      rcases List.mem_cons.mp hx with rfl | hx2
      · exact ⟨y, by simp, hy⟩
      · obtain ⟨z, hz, hfz⟩ := hmem x hx2
        exact ⟨z, by simp [hz], hfz⟩

/-- A counterpart in good standing yields a card whose `user_id` is the
counterpart. -/
theorem matchCardOf_ok_of_good (st : Store) (uid : String) (m : String × Match)
    (h : goodOther st uid m.2) :
    ∃ y, matchCardOf st uid m = .ok y ∧ y.user_id = otherOf uid m.2 := by
  obtain ⟨hv, hs⟩ := h
  obtain ⟨u, hu⟩ := Option.isSome_iff_exists.mp hs
  refine ⟨⟨m.1, otherOf uid m.2, u.first_name,
    ((findProfile st (otherOf uid m.2)).map Profile.photos).getD []⟩, ?_, rfl⟩
  simp only [matchCardOf, hv, Bool.not_true, Bool.false_eq_true, if_false, hu]

theorem goodOther_users_congr (S T : Store) (uid : String) (m : Match)
    (h : S.users = T.users) : goodOther S uid m ↔ goodOther T uid m := by
  unfold goodOther lookupUser
  rw [h]

/-- C9: a user right-swiping themself always gets `match = true`, because
the reciprocal lookup finds the swipe record the same call just inserted;
and when no self-pair match exists yet, a match record with both
participants equal to the user is created. -/
theorem C9_self_swipe (st : Store) (u : String) :
    (swipe st u u "right").2 = .ok true ∧
    (countPair st.«matches» u u = 0 →
      (swipe st u u "right").1.«matches» = st.«matches» ++ [(genOid st.fresh, (Match.mk u u))]) := by
  have hrec : (st.swipes ++ [(Swipe.mk u u "right")]).any
      (fun s => s.swiper_id == u && s.target_id == u && s.direction == "right") = true := by
    rw [List.any_append]
    simp
  constructor
  · rw [swipe_right_flag, hrec]
  · intro h0
    rcases swipe_right_matches_spec st u u hrec with ⟨hp, _⟩ | ⟨_, hm⟩
    · rw [countPair_eq_zero_iff] at h0
      rw [h0] at hp
      cases hp
    · exact hm

/-- Witness for C9: in a fresh store, A right-swiping A creates the
self-match. -/
theorem C9_self_swipe_witness :
    (swipe stAB idA idA "right").1.«matches» =
      stAB.«matches» ++ [(genOid stAB.fresh, (Match.mk idA idA))] :=
  (C9_self_swipe stAB idA).2 rfl

/-- C2: for distinct users A and B with no pre-existing match for the pair,
A right-swiping B and then B right-swiping A reports `match = true` on the
second swipe and leaves exactly one match record for the unordered pair
{A, B}; both users' `list_matches` include each other (given both users
exist, their ids are well formed and their other matches are listable); and
a further right swipe by either party still reports `match = true` without
creating a second match record. -/
theorem C2_mutual_right_swipes (st : Store) (A B : String)
    (hAB : A ≠ B)
    (hvA : validOid A = true) (hvB : validOid B = true)
    (huA : (lookupUser st A).isSome = true) (huB : (lookupUser st B).isSome = true)
    (h0 : countPair st.«matches» A B = 0)
    (hGA : ∀ m ∈ matchesOf st A, goodOther st A m.2)
    (hGB : ∀ m ∈ matchesOf st B, goodOther st B m.2) :
    (swipe (swipe st A B "right").1 B A "right").2 = .ok true ∧
    countPair (swipe (swipe st A B "right").1 B A "right").1.«matches» A B = 1 ∧
    (∃ cs, list_matches (swipe (swipe st A B "right").1 B A "right").1 A = .ok cs ∧
      B ∈ cs.map MatchCard.user_id) ∧
    (∃ cs, list_matches (swipe (swipe st A B "right").1 B A "right").1 B = .ok cs ∧
      A ∈ cs.map MatchCard.user_id) ∧
    ((swipe (swipe (swipe st A B "right").1 B A "right").1 A B "right").2 = .ok true ∧
      countPair
        (swipe (swipe (swipe st A B "right").1 B A "right").1 A B "right").1.«matches»
        A B = 1) ∧
    ((swipe (swipe (swipe st A B "right").1 B A "right").1 B A "right").2 = .ok true ∧
      countPair
        (swipe (swipe (swipe st A B "right").1 B A "right").1 B A "right").1.«matches»
        A B = 1) := by
  set st1 := (swipe st A B "right").1 with hst1
  set st2 := (swipe st1 B A "right").1 with hst2
  obtain ⟨hu1, hp1, hs1, hm1⟩ := swipe_right_state st A B
  obtain ⟨hu2, hp2, hs2, _⟩ := swipe_right_state st1 B A
  have hABf : (A == B) = false := beq_eq_false_iff_ne.mpr hAB
  have hBAf : (B == A) = false := beq_eq_false_iff_ne.mpr (Ne.symm hAB)
  have hmemAB1 : Swipe.mk A B "right" ∈ st1.swipes := by rw [hs1]; simp
  have hrecBA : (st1.swipes ++ [Swipe.mk B A "right"]).any
      (fun s => s.swiper_id == A && s.target_id == B && s.direction == "right") = true := by
    rw [List.any_eq_true]
    exact ⟨Swipe.mk A B "right", List.mem_append_left _ hmemAB1, by simp⟩
  have hflag2 : (swipe st1 B A "right").2 = .ok true := by rw [swipe_right_flag, hrecBA]
  have hstruct : ∃ i mm, st2.«matches» = st.«matches» ++ [(i, mm)] ∧
      (mm = Match.mk A B ∨ mm = Match.mk B A) := by
    rcases swipe_right_matches_spec st1 B A hrecBA with ⟨hpany, hm2⟩ | ⟨hpany, hm2⟩
    · rcases hm1 with hm1 | hm1
      · exfalso
        rw [hm1] at hpany
        have h0b : countPair st.«matches» B A = 0 := by rw [countPair_comm]; exact h0
        rw [countPair_eq_zero_iff] at h0b
        rw [h0b] at hpany
        exact Bool.noConfusion hpany
      · exact ⟨genOid st.fresh, Match.mk A B, hm2.trans hm1, Or.inl rfl⟩
    · rcases hm1 with hm1 | hm1
      · exact ⟨genOid st1.fresh, Match.mk B A, by rw [hm2, hm1], Or.inr rfl⟩
      · exfalso
        have hx : st1.«matches».any (fun p => isPair B A p.2) = true := by
          rw [List.any_eq_true]
          exact ⟨(genOid st.fresh, Match.mk A B), by rw [hm1]; simp, isPair_mk_right B A⟩
        rw [hx] at hpany
        exact Bool.noConfusion hpany
  obtain ⟨i, mm, hmEq, hmCase⟩ := hstruct
  have hPair : isPair A B mm = true := by
    rcases hmCase with rfl | rfl
    · exact isPair_mk_left A B
    · exact isPair_mk_right A B
  have hcount2 : countPair st2.«matches» A B = 1 := by
    rw [hmEq, countPair_append, h0, countPair_singleton i mm A B hPair]
  have hoA : otherOf A mm = B := by
    rcases hmCase with rfl | rfl
    · simp [otherOf]
    · simp [otherOf, hBAf]
  have hoB : otherOf B mm = A := by
    rcases hmCase with rfl | rfl
    · simp [otherOf, hABf]
    · simp [otherOf]
  have husers2 : st2.users = st.users := hu2.trans hu1
  have hMA : matchesOf st2 A = matchesOf st A ++ [(i, mm)] := by
    unfold matchesOf
    rw [hmEq, List.filter_append]
    have ht : (mm.user_a == A || mm.user_b == A) = true := by
      rcases hmCase with rfl | rfl <;> simp
    simp [ht]
  have hMB : matchesOf st2 B = matchesOf st B ++ [(i, mm)] := by
    unfold matchesOf
    rw [hmEq, List.filter_append]
    have ht : (mm.user_a == B || mm.user_b == B) = true := by
      rcases hmCase with rfl | rfl <;> simp
    simp [ht]
  have hGood2A : ∀ m ∈ matchesOf st2 A, goodOther st2 A m.2 := by
    intro m hm
    rw [hMA] at hm
    rcases List.mem_append.mp hm with hm | hm
    · exact (goodOther_users_congr st2 st A m.2 husers2).mpr (hGA m hm)
    · have hmeq : m = (i, mm) := by simpa using hm
      subst hmeq
      refine (goodOther_users_congr st2 st A mm husers2).mpr ⟨?_, ?_⟩
      · rw [hoA]; exact hvB
      · rw [hoA]; exact huB
  have hGood2B : ∀ m ∈ matchesOf st2 B, goodOther st2 B m.2 := by
    intro m hm
    rw [hMB] at hm
    rcases List.mem_append.mp hm with hm | hm
    · exact (goodOther_users_congr st2 st B m.2 husers2).mpr (hGB m hm)
    · have hmeq : m = (i, mm) := by simpa using hm
      subst hmeq
      refine (goodOther_users_congr st2 st B mm husers2).mpr ⟨?_, ?_⟩
      · rw [hoB]; exact hvA
      · rw [hoB]; exact huA
  have hlistA : ∃ cs, list_matches st2 A = .ok cs ∧ B ∈ cs.map MatchCard.user_id := by
    obtain ⟨cs, hcs, himg⟩ := exceptMap_ok_of_all (matchCardOf st2 A) (matchesOf st2 A)
      fun x hx => (matchCardOf_ok_of_good st2 A x (hGood2A x hx)).imp fun y hy => hy.1
    have hmm_mem : (i, mm) ∈ matchesOf st2 A := by
      rw [hMA]; exact List.mem_append_right _ (by simp)
    obtain ⟨y, hyin, hfy⟩ := himg (i, mm) hmm_mem
    obtain ⟨y0, hy0, hy0id⟩ := matchCardOf_ok_of_good st2 A (i, mm) (hGood2A _ hmm_mem)
    have hyy : y = y0 := Except.ok.inj (hfy.symm.trans hy0)
    refine ⟨cs, hcs, List.mem_map.mpr ⟨y, hyin, ?_⟩⟩
    rw [hyy, hy0id]
    exact hoA
  have hlistB : ∃ cs, list_matches st2 B = .ok cs ∧ A ∈ cs.map MatchCard.user_id := by
    obtain ⟨cs, hcs, himg⟩ := exceptMap_ok_of_all (matchCardOf st2 B) (matchesOf st2 B)
      fun x hx => (matchCardOf_ok_of_good st2 B x (hGood2B x hx)).imp fun y hy => hy.1
    have hmm_mem : (i, mm) ∈ matchesOf st2 B := by
      rw [hMB]; exact List.mem_append_right _ (by simp)
    obtain ⟨y, hyin, hfy⟩ := himg (i, mm) hmm_mem
    obtain ⟨y0, hy0, hy0id⟩ := matchCardOf_ok_of_good st2 B (i, mm) (hGood2B _ hmm_mem)
    have hyy : y = y0 := Except.ok.inj (hfy.symm.trans hy0)
    refine ⟨cs, hcs, List.mem_map.mpr ⟨y, hyin, ?_⟩⟩
    rw [hyy, hy0id]
    exact hoB
  have hmemBA2 : Swipe.mk B A "right" ∈ st2.swipes := by rw [hs2]; simp
  have hmemAB2 : Swipe.mk A B "right" ∈ st2.swipes := by
    rw [hs2]
    exact List.mem_append_left _ hmemAB1
  have hrec3 : (st2.swipes ++ [Swipe.mk A B "right"]).any
      (fun s => s.swiper_id == B && s.target_id == A && s.direction == "right") = true := by
    rw [List.any_eq_true]
    exact ⟨Swipe.mk B A "right", List.mem_append_left _ hmemBA2, by simp⟩
  have hrec4 : (st2.swipes ++ [Swipe.mk B A "right"]).any
      (fun s => s.swiper_id == A && s.target_id == B && s.direction == "right") = true := by
    rw [List.any_eq_true]
    exact ⟨Swipe.mk A B "right", List.mem_append_left _ hmemAB2, by simp⟩
  have hanyAB : st2.«matches».any (fun p => isPair A B p.2) = true :=
    any_of_countPair_pos _ _ _ (by omega)
  have hanyBA : st2.«matches».any (fun p => isPair B A p.2) = true := by
    apply any_of_countPair_pos
    rw [countPair_comm]
    omega
  have hcnt3 : countPair (swipe st2 A B "right").1.«matches» A B = 1 := by
    rcases swipe_right_matches_spec st2 A B hrec3 with ⟨_, hm3⟩ | ⟨hpany3, _⟩
    · rw [hm3]; exact hcount2
    · rw [hanyAB] at hpany3; exact Bool.noConfusion hpany3
  have hcnt4 : countPair (swipe st2 B A "right").1.«matches» A B = 1 := by
    rcases swipe_right_matches_spec st2 B A hrec4 with ⟨_, hm4⟩ | ⟨hpany4, _⟩
    · rw [hm4]; exact hcount2
    · rw [hanyBA] at hpany4; exact Bool.noConfusion hpany4
  exact ⟨hflag2, hcount2, hlistA, hlistB,
    ⟨by rw [swipe_right_flag, hrec3], hcnt3⟩,
    ⟨by rw [swipe_right_flag, hrec4], hcnt4⟩⟩

/-- Witness for C2: the mutual swipes of A and B in a fresh two-user store
leave exactly one match record for the pair. -/
theorem C2_mutual_right_swipes_witness :
    countPair (swipe (swipe stAB idA idB "right").1 idB idA "right").1.«matches»
      idA idB = 1 :=
  (C2_mutual_right_swipes stAB idA idB (by decide) (by decide) (by decide) rfl rfl rfl
    (by intro m hm; simp [matchesOf, stAB] at hm)
    (by intro m hm; simp [matchesOf, stAB] at hm)).2.1

/-- An error of the fallible loop comes from some element of the list. -/
theorem exceptMap_error_mem {α β : Type} (f : α → Except Err β) (l : List α) (e : Err)
    (h : exceptMap f l = .error e) : ∃ x ∈ l, f x = .error e := by
  induction l with
  | nil => exact absurd h (by simp [exceptMap])
  | cons a as ih =>
    cases hf : f a with
    | error e2 =>
      simp only [exceptMap, hf, Except.error.injEq] at h
      exact ⟨a, by simp, by rw [hf, h]⟩
    | ok y =>
      cases hrest : exceptMap f as with
      | error e2 =>
        simp only [exceptMap, hf, hrest, Except.error.injEq] at h
        obtain ⟨x, hx, hfx⟩ := ih (by rw [hrest, h])
        exact ⟨x, by simp [hx], hfx⟩
      | ok ys =>
        simp only [exceptMap, hf, hrest] at h
        exact absurd h (by simp)

/-- A successful fallible loop means every element succeeded. -/
theorem exceptMap_ok_forall {α β : Type} (f : α → Except Err β) (l : List α) (ys : List β)
    (h : exceptMap f l = .ok ys) : ∀ x ∈ l, ∃ y, f x = .ok y := by
  induction l generalizing ys with
  | nil => simp
  | cons a as ih =>
    cases hf : f a with
    | error e2 =>
      simp only [exceptMap, hf] at h
      exact absurd h (by simp)
    | ok y =>
      cases hrest : exceptMap f as with
      | error e2 =>
        simp only [exceptMap, hf, hrest] at h
        exact absurd h (by simp)
      | ok ys2 =>
        intro x hx
        rcases List.mem_cons.mp hx with rfl | hx2
        · exact ⟨y, hf⟩
        · exact ih ys2 hrest x hx2

/-- Every error `matchCardOf` can raise is an unhandled exception, never a
structured HTTP error. -/
theorem matchCardOf_error_unhandled (st : Store) (uid : String) (x : String × Match)
    (e : Err) (h : matchCardOf st uid x = .error e) : ∃ s, e = .unhandled s := by
  unfold matchCardOf at h
  by_cases hv : validOid (otherOf uid x.2)
  · simp only [hv, Bool.not_true, Bool.false_eq_true, if_false] at h
    cases hu : lookupUser st (otherOf uid x.2) with
    | none =>
      simp only [hu, Except.error.injEq] at h
      exact ⟨_, h.symm⟩
    | some u =>
      simp only [hu] at h
      exact absurd h (by simp)
  · have hvf : validOid (otherOf uid x.2) = false := by simpa using hv
    simp only [hvf, Bool.not_false, if_true, Except.error.injEq] at h
    exact ⟨_, h.symm⟩

/-- A counterpart in bad standing makes `matchCardOf` fail. -/
theorem matchCardOf_fails_of_bad (st : Store) (uid : String) (x : String × Match)
    (h : ¬ goodOther st uid x.2) : ∀ y, matchCardOf st uid x ≠ .ok y := by
  intro y hy
  unfold matchCardOf at hy
  by_cases hv : validOid (otherOf uid x.2)
  · simp only [hv, Bool.not_true, Bool.false_eq_true, if_false] at hy
    cases hu : lookupUser st (otherOf uid x.2) with
    | none =>
      simp only [hu] at hy
      exact absurd hy (by simp)
    | some u => exact h ⟨hv, by rw [hu]; rfl⟩
  · have hvf : validOid (otherOf uid x.2) = false := by simpa using hv
    simp only [hvf, Bool.not_false, if_true] at hy
    exact absurd hy (by simp)

/-- C10: `list_matches` returns a structured result exactly as long as every
match of the user has a counterpart with a well-formed id and an existing
User record; as soon as one counterpart is absent or malformed, the call
ends in an unhandled exception (bson `InvalidId` or `AttributeError` on the
`None` user), not in a structured NotFound. -/
theorem C10_list_matches_crashes_on_bad_counterpart (st : Store) (uid : String) :
    ((∀ m ∈ matchesOf st uid, goodOther st uid m.2) →
      isOkE (list_matches st uid) = true) ∧
    ((∃ m ∈ matchesOf st uid, ¬ goodOther st uid m.2) →
      ∃ s, list_matches st uid = .error (.unhandled s)) := by
  constructor
  · intro hall
    obtain ⟨ys, hys, _⟩ := exceptMap_ok_of_all (matchCardOf st uid) (matchesOf st uid)
      fun x hx => (matchCardOf_ok_of_good st uid x (hall x hx)).imp fun y hy => hy.1
    unfold list_matches
    rw [hys]
    rfl
  · rintro ⟨m, hm, hbad⟩
    cases hres : list_matches st uid with
    | ok ys =>
      obtain ⟨y, hy⟩ := exceptMap_ok_forall (matchCardOf st uid) (matchesOf st uid) ys
        hres m hm
      exact absurd hy (matchCardOf_fails_of_bad st uid m hbad y)
    | error e =>
      obtain ⟨x, hx, hfx⟩ := exceptMap_error_mem (matchCardOf st uid) (matchesOf st uid)
        e hres
      obtain ⟨s, rfl⟩ := matchCardOf_error_unhandled st uid x e hfx
      exact ⟨s, rfl⟩

/-- Witness for C10: in a store where every counterpart exists,
`list_matches` returns a structured result. -/
theorem C10_list_matches_crashes_on_bad_counterpart_witness :
    isOkE (list_matches stM idA) = true :=
  (C10_list_matches_crashes_on_bad_counterpart stM idA).1 (by
    intro m hm
    have hmeq : m = (idM, matchAB) := by
      have h2 := hm
      simp [matchesOf, stM] at h2
      exact h2.1
    subst hmeq
    exact ⟨by decide, by decide⟩)

end CampusDating
